import Mathlib

/-!
Shallow embedding of the track-recommendation core defined in `src/app.py` and
`src/recommend_api.py` (the two files contain byte-identical copies of
`clean_string`, `recommend_based_on_genre_artist`, `recommend_from_favorites`
and `recommend_from_watch_history`; the embedding below covers both).

Machine representation choices:
* catalog rows are records with an integer id and nullable string attributes;
* similarity scores are natural numbers of tenths (the Python floats 0.0, 0.3,
  0.7 and 1.0 and the sums the code forms from them are all exact in IEEE
  double, and scaling by ten preserves the sums and the ordering; `simValue`
  recovers the exact rational value);
* fallible pandas operations are embedded in `Except String`; the exception
  payloads carry a short description of the pandas error they stand for.
-/

namespace Recommend

/-- A row of the catalog table `track_df` (loaded from `track_df_cleaned.csv`):
an integer `track_id` plus nullable string attributes.  A missing (NaN) cell is
`none`. -/
structure Track where
  track_id : Int
  title : Option String
  genre_top : Option String
  artist_name : Option String
deriving DecidableEq, Repr

/-- A scored candidate row as produced by the scorer: the copy of a catalog row
whose `genre_top` and `artist_name` cells have been overwritten with their
normalized forms and which carries the added `similarity` column.

The similarity score is stored in tenths: 0, 3, 7 and 10 stand for the Python
floats 0.0, 0.3, 0.7 and 1.0.  Every float operation the source performs on
scores (initialising to 0.0, adding 0.7, adding 0.3, comparing for the sort)
is exact in IEEE double — in particular 0.7 + 0.3 = 1.0 holds exactly — and
multiplication by ten carries them to the corresponding exact operations on
these natural numbers, preserving sums and order.  `simValue` recovers the
numeric value. -/
structure Cand where
  track_id : Int
  title : Option String
  genre_top : String
  artist_name : String
  similarity : ℕ
deriving DecidableEq, Repr

/-- The numeric value, as an exact rational, of a similarity score stored in
tenths: `simValue 7 = 0.7` and so on. -/
def simValue (tenths : ℕ) : ℚ := (tenths : ℚ) / 10

/-- Python `str.strip()`: remove whitespace from both ends of the character
sequence. -/
def pyStrip (s : List Char) : List Char :=
  (((s.dropWhile Char.isWhitespace).reverse.dropWhile Char.isWhitespace).reverse)

/-- Python `str.lower()`: lower-case every character (the catalog attributes
are compared at the ASCII level). -/
def pyLower (s : List Char) : List Char := s.map Char.toLower

/-- `clean_string(val)` from both source files:
`str(val).strip().lower() if pd.notna(val) else ""` — strip surrounding
whitespace, then lower-case, and map a missing value to the empty string. -/
def clean_string : Option String → String
  | none => ""
  | some s => ⟨pyLower (pyStrip s.data)⟩

/-- A pandas `DataFrame` as it flows through the aggregator: its rows together
with whether the frame has the catalog columns.  `pd.DataFrame()` — the
aggregator's initial accumulator and the scorer's unknown-seed result — has no
columns at all, while every frame derived from the catalog has the five columns
including `track_id` and `similarity`.  All frames reachable in this program
with at least one row have the columns. -/
structure PFrame where
  hasCols : Bool
  rows : List Cand
deriving DecidableEq, Repr

/-- `pd.concat([a, b])`: rows of `a` followed by rows of `b`; the result has
the columns iff either part does. -/
def pconcat (a b : PFrame) : PFrame := ⟨a.hasCols || b.hasCols, a.rows ++ b.rows⟩

/-- Insertion step of the similarity-descending sort.  A newly inserted element
is placed before the first existing element of strictly smaller similarity, so
elements inserted earlier stay before equal-similarity elements inserted
later. -/
def insertDesc (c : Cand) : List Cand → List Cand
  | [] => [c]
  | x :: xs => if x.similarity ≤ c.similarity then c :: x :: xs else x :: insertDesc c xs

/-- `DataFrame.sort_values(by=similarity, ascending=False)`: reorders the rows
so that the `similarity` column is non-increasing.  pandas delegates the order
of equal-similarity rows to its sort kernel (default `kind=quicksort`, whose
tie order is implementation-defined and documented by pandas as not stable;
on frames of fewer than 16 rows the kernel degenerates to a stable insertion
sort).  The embedding fixes the tie order to the stable first-occurrence-first
order; every theorem below is invariant under the choice of tie order. -/
def sort_values_desc : List Cand → List Cand
  | [] => []
  | x :: xs => insertDesc x (sort_values_desc xs)

/-- Recursion core of `DataFrame.drop_duplicates(subset=track_id)`: keep each
row whose `track_id` was not seen before. -/
def dedupGo (seen : List Int) : List Cand → List Cand
  | [] => []
  | x :: xs =>
    if x.track_id ∈ seen then dedupGo seen xs
    else x :: dedupGo (x.track_id :: seen) xs

/-- `DataFrame.drop_duplicates(subset=track_id)`: keeps, in order, the first
row carrying each `track_id`. -/
def drop_duplicates_by_id (l : List Cand) : List Cand := dedupGo [] l

/-- `DataFrame.sample(n=n, random_state=42)` (without replacement): raises
`ValueError` when `n` exceeds the number of rows, and otherwise draws a
deterministic pseudo-random `n`-row subset (the fixed seed 42 makes repeated
calls identical).  Which `n`-row subset the underlying Mersenne–Twister stream
selects is a library implementation detail; the embedding fixes the draw to
the first `n` rows.  Every theorem below is invariant under which `n`-row
subset is drawn. -/
def dfSample (l : List Cand) (n : Nat) : Except String (List Cand) :=
  if l.length < n then .error "ValueError: sample larger than population"
  else .ok (l.take n)

/-- The per-candidate body of lines 29 to 35 of `src/app.py`: normalize the
row attributes in place and assign `similarity = 0.0`, plus `0.7` (7 tenths)
when the normalized genre matches the seed genre and plus `0.3` (3 tenths)
when the normalized artist matches the seed artist. -/
def scoreCandidate (genre artist : String) (r : Track) : Cand :=
  let g := clean_string r.genre_top
  let a := clean_string r.artist_name
  { track_id := r.track_id, title := r.title, genre_top := g, artist_name := a,
    similarity := (if g = genre then 7 else 0) + (if a = artist then 3 else 0) }

/-- `recommend_based_on_genre_artist(track_id, track_df, top_k=5)` (identical
in the two source files).  `track_df.find?` models the membership test
`track_id not in track_df[track_id].values` together with `iloc[0]` (the first
matching row).  An absent seed returns the column-less `pd.DataFrame()`.
Otherwise every other row is scored, the `2 * top_k` highest-similarity rows
form `top`, and the diversity draw samples from the rows whose normalized
genre differs from the seed genre — but with the sample size
`n = min(5, len(candidates))` measured against ALL candidates, so the call
raises `ValueError` whenever the genre-diverse subset is smaller than that
`n`.  The first `top_k` rows of `top` and the sample are concatenated,
deduplicated by `track_id` keeping first occurrences, and truncated to
`top_k + 3` rows.

`candidatesOf` is the candidate-building step (lines 29 to 35 of `src/app.py`):
every catalog row other than the seed rows, normalized and scored against the
seed attributes. -/
def candidatesOf (track_id : Int) (track_df : List Track) (input_track : Track) :
    List Cand :=
  (track_df.filter (fun r => r.track_id != track_id)).map
    (scoreCandidate (clean_string input_track.genre_top)
      (clean_string input_track.artist_name))

def recommend_based_on_genre_artist (track_id : Int) (track_df : List Track)
    (top_k : Nat := 5) : Except String PFrame :=
  match track_df.find? (fun r => r.track_id == track_id) with
  | none => .ok ⟨false, []⟩
  | some input_track =>
    let genre := clean_string input_track.genre_top
    let candidates := candidatesOf track_id track_df input_track
    let top := (sort_values_desc candidates).take (top_k * 2)
    let diversePool := candidates.filter (fun c => c.genre_top != genre)
    match dfSample diversePool (min 5 candidates.length) with
    | .error e => .error e
    | .ok diverse =>
      .ok ⟨true, (drop_duplicates_by_id (top.take top_k ++ diverse)).take (top_k + 3)⟩

/-- The accumulation loop of `recommend_from_favorites`: starting from the
column-less `pd.DataFrame()`, concatenate each seed id's
`recommend_based_on_genre_artist(tid, track_df, top_k=3)` result in order.  A
pandas exception raised by a scorer call aborts the loop. -/
def accumRecs (fav_ids : List Int) (track_df : List Track) (all_recs : PFrame) :
    Except String PFrame :=
  match fav_ids with
  | [] => .ok all_recs
  | tid :: rest =>
    match recommend_based_on_genre_artist tid track_df 3 with
    | .error e => .error e
    | .ok recs => accumRecs rest track_df (pconcat all_recs recs)

/-- `recommend_from_favorites(fav_ids, track_df, top_k=10)` (identical in the
two source files): accumulate the per-seed recommendations, each with the
fixed sub-budget `top_k=3`, then
`drop_duplicates(subset=track_id).sort_values(by=similarity, ascending=False).head(top_k)`.
When every per-seed result was the column-less `pd.DataFrame()` — that is,
when `fav_ids` is empty or no seed id is present in the catalog — the
accumulated frame has neither a `track_id` nor a `similarity` column and the
dedup/sort chain raises `KeyError` (`drop_duplicates` takes its empty-frame
shortcut, then `sort_values` fails to resolve the `similarity` column). -/
def recommend_from_favorites (fav_ids : List Int) (track_df : List Track)
    (top_k : Nat := 10) : Except String (List Cand) :=
  match accumRecs fav_ids track_df ⟨false, []⟩ with
  | .error e => .error e
  | .ok all_recs =>
    if all_recs.hasCols then
      .ok ((sort_values_desc (drop_duplicates_by_id all_recs.rows)).take top_k)
    else
      .error "KeyError: similarity"

/-- `recommend_from_watch_history(history_ids, track_df, top_k=10)` (identical
in the two source files): delegates to `recommend_from_favorites`. -/
def recommend_from_watch_history (history_ids : List Int) (track_df : List Track)
    (top_k : Nat := 10) : Except String (List Cand) :=
  recommend_from_favorites history_ids track_df top_k

/-- The four-track catalog of the specification's section 8 scenarios. -/
def catalogScenario : List Track :=
  [⟨1, none, some "Rock", some "A"⟩, ⟨2, none, some "Rock", some "B"⟩,
   ⟨3, none, some "Jazz", some "A"⟩, ⟨4, none, some "Jazz", some "C"⟩]

/-- A two-track catalog in which the only candidate shares the seed genre, so
the genre-diverse pool of seed 1 is empty. -/
def catalogAllRock : List Track :=
  [⟨1, none, some "Rock", some "A"⟩, ⟨2, none, some "Rock", some "B"⟩]

/-- A seven-track catalog on which every call succeeds (the genre-diverse pool
of seed 1 holds five rows).  Against seed 1 it exercises a genre-only match
(track 2), an artist-only match (track 3), no match (tracks 4 to 7), and the
normalization of case, surrounding whitespace and a missing value (track 7). -/
def catalogWide : List Track :=
  [⟨1, none, some "Rock", some "A"⟩, ⟨2, none, some "Rock", some "B"⟩,
   ⟨3, none, some "Jazz", some "A"⟩, ⟨4, none, some "Jazz", some "C"⟩,
   ⟨5, none, some "Pop", some "D"⟩, ⟨6, none, some "Folk", some "E"⟩,
   ⟨7, none, some " BLUES ", none⟩]

/-- The similarity-descending order used throughout: row `a` precedes row `b`
only if `b.similarity ≤ a.similarity`. -/
def simGE (a b : Cand) : Prop := b.similarity ≤ a.similarity

/-- The rows that both `recommend_based_on_genre_artist 1 catalogWide 5` and
`recommend_from_favorites [1] catalogWide 10` produce: track 2 matches the
seed genre (similarity 7 tenths, the float 0.7), track 3 the seed artist
(3 tenths, the float 0.3), the rest nothing. -/
def rowsWide : List Cand :=
  [⟨2, none, "rock", "b", 7⟩, ⟨3, none, "jazz", "a", 3⟩, ⟨4, none, "jazz", "c", 0⟩,
   ⟨5, none, "pop", "d", 0⟩, ⟨6, none, "folk", "e", 0⟩, ⟨7, none, "blues", "", 0⟩]

/-- The frame `recommend_based_on_genre_artist 1 catalogWide 5` returns. -/
def outWide : PFrame := ⟨true, rowsWide⟩

end Recommend

namespace Recommend

/-! Supporting lemmas about the embedded pandas operations. -/

/-- Membership in an insertion step. -/
theorem mem_insertDesc {c x : Cand} {l : List Cand} :
    x ∈ insertDesc c l ↔ x = c ∨ x ∈ l := by
  induction l with
  | nil => simp [insertDesc]
  | cons y ys ih =>
    by_cases h : y.similarity ≤ c.similarity
    · simp [insertDesc, h]
    · simp only [insertDesc, if_neg h, List.mem_cons, ih]
      tauto

/-- An insertion step produces a permutation of consing. -/
theorem insertDesc_perm (c : Cand) (l : List Cand) : List.Perm (insertDesc c l) (c :: l) := by
  induction l with
  | nil => rfl
  | cons y ys ih =>
    by_cases h : y.similarity ≤ c.similarity
    · simp [insertDesc, h]
    · simp only [insertDesc, if_neg h]
      exact (ih.cons y).trans (List.Perm.swap c y ys)

/-- The embedded sort permutes its input. -/
theorem sort_values_desc_perm (l : List Cand) : List.Perm (sort_values_desc l) l := by
  induction l with
  | nil => rfl
  | cons x xs ih => exact (insertDesc_perm x (sort_values_desc xs)).trans (ih.cons x)

/-- An insertion step preserves the similarity-descending invariant. -/
theorem pairwise_insertDesc {c : Cand} {l : List Cand} (h : l.Pairwise simGE) :
    (insertDesc c l).Pairwise simGE := by
  induction l with
  | nil => simp [insertDesc, simGE]
  | cons y ys ih =>
    rcases List.pairwise_cons.mp h with ⟨hy, hys⟩
    by_cases hcmp : y.similarity ≤ c.similarity
    · rw [insertDesc, if_pos hcmp]
      refine List.pairwise_cons.mpr ⟨?_, h⟩
      intro z hz
      rcases List.mem_cons.mp hz with rfl | hz'
      · exact hcmp
      · exact le_trans (hy z hz') hcmp
    · rw [insertDesc, if_neg hcmp]
      refine List.pairwise_cons.mpr ⟨?_, ih hys⟩
      intro z hz
      rcases mem_insertDesc.mp hz with rfl | hz'
      · exact le_of_not_le hcmp
      · exact hy z hz'

/-- The embedded sort output is similarity-descending. -/
theorem sort_values_desc_pairwise (l : List Cand) :
    (sort_values_desc l).Pairwise simGE := by
  induction l with
  | nil => simp [sort_values_desc]
  | cons x xs ih => exact pairwise_insertDesc ih

/-- Deduplication only keeps rows of its input. -/
theorem mem_of_mem_dedupGo {seen : List Int} {l : List Cand} {x : Cand}
    (h : x ∈ dedupGo seen l) : x ∈ l := by
  induction l generalizing seen with
  | nil => simp [dedupGo] at h
  | cons y ys ih =>
    by_cases hy : y.track_id ∈ seen
    · simp only [dedupGo, if_pos hy] at h
      exact List.mem_cons_of_mem y (ih h)
    · simp only [dedupGo, if_neg hy] at h
      rcases List.mem_cons.mp h with rfl | h'
      · exact List.mem_cons_self x ys
      · exact List.mem_cons_of_mem y (ih h')

/-- Deduplication yields pairwise distinct ids, all of them outside `seen`. -/
theorem dedupGo_nodup (seen : List Int) (l : List Cand) :
    ((dedupGo seen l).map Cand.track_id).Nodup ∧
      ∀ i ∈ (dedupGo seen l).map Cand.track_id, i ∉ seen := by
  induction l generalizing seen with
  | nil => simp [dedupGo]
  | cons y ys ih =>
    by_cases hy : y.track_id ∈ seen
    · simpa only [dedupGo, if_pos hy] using ih seen
    · obtain ⟨h1, h2⟩ := ih (y.track_id :: seen)
      refine ⟨?_, ?_⟩
      · simp only [dedupGo, if_neg hy, List.map_cons, List.nodup_cons]
        exact ⟨fun hmem => (h2 _ hmem) (List.mem_cons_self _ _), h1⟩
      · simp only [dedupGo, if_neg hy, List.map_cons, List.mem_cons]
        rintro i (rfl | hi)
        · exact hy
        · exact fun hseen => (h2 i hi) (List.mem_cons_of_mem _ hseen)

/-- `drop_duplicates` yields pairwise distinct ids. -/
theorem drop_duplicates_by_id_nodup (l : List Cand) :
    ((drop_duplicates_by_id l).map Cand.track_id).Nodup :=
  (dedupGo_nodup [] l).1

/-- `drop_duplicates` only keeps rows of its input. -/
theorem mem_of_mem_drop_duplicates {l : List Cand} {x : Cand}
    (h : x ∈ drop_duplicates_by_id l) : x ∈ l :=
  mem_of_mem_dedupGo h

end Recommend

namespace Recommend

/-- Inversion of a successful scorer call on a present seed: the output frame
has the columns and consists of the first `top_k` rows of the sorted
candidates followed by the diversity draw (some rows of the candidate set),
deduplicated by id and truncated to `top_k + 3`. -/
theorem scorer_ok_inv {tid : Int} {df : List Track} {k : Nat} {out : PFrame}
    {it : Track} (hfind : df.find? (fun r => r.track_id == tid) = some it)
    (hok : recommend_based_on_genre_artist tid df k = .ok out) :
    ∃ diverse : List Cand,
      (∀ x ∈ diverse, x ∈ candidatesOf tid df it) ∧
      out = ⟨true, (drop_duplicates_by_id
        (((sort_values_desc (candidatesOf tid df it)).take (k * 2)).take k ++
          diverse)).take (k + 3)⟩ := by
  unfold recommend_based_on_genre_artist at hok
  rw [hfind] at hok
  simp only at hok
  cases hs : dfSample
      ((candidatesOf tid df it).filter
        (fun c => c.genre_top != clean_string it.genre_top))
      (min 5 (candidatesOf tid df it).length) with
  | error e => rw [hs] at hok; cases hok
  | ok diverse =>
    rw [hs] at hok
    cases hok
    refine ⟨diverse, ?_, rfl⟩
    intro x hx
    unfold dfSample at hs
    split at hs
    · cases hs
    · cases hs
      exact (List.mem_filter.mp (List.take_subset _ _ hx)).1

/-- Claim C1: the Multi-Seed Aggregator is claimed to return an empty sequence,
without error, on an empty `seed_ids` sequence and on a sequence of which every
id is absent from the catalog.  The code instead raises `KeyError` in both
cases: every per-seed result is the column-less `pd.DataFrame()`, so the
accumulated frame lacks the `similarity` column that the final
`sort_values(by=similarity)` call resolves. -/
theorem c1_empty_or_unknown_seeds_raise :
    recommend_from_favorites [] catalogScenario 10 = .error "KeyError: similarity" ∧
    recommend_from_favorites [999] catalogScenario 10 = .error "KeyError: similarity" :=
  ⟨rfl, rfl⟩

/-- Claim C2: the Single-Seed Scorer is claimed never to raise on a seed
present in the catalog, drawing exactly the available genre-diverse candidates
when fewer than five exist.  The code instead raises `ValueError`: on
`catalogAllRock` with seed 1 the sample size is `min(5, 1) = 1` but the
genre-diverse subset is empty. -/
theorem c2_known_seed_diversity_draw_raises :
    recommend_based_on_genre_artist 1 catalogAllRock 5 =
      .error "ValueError: sample larger than population" := rfl

/-- Claim C5: on the section-8 catalog, `aggregate([1, 999], catalog, top_k=5)`
is claimed to equal `score_against_seed(1, catalog, top_k=3)` deduplicated and
truncated.  Both calls instead raise `ValueError`: seed 1 has three candidates,
so the diversity draw requests `min(5, 3) = 3` rows from the two-row
genre-diverse subset. -/
theorem c5_scenario_raises :
    recommend_from_favorites [1, 999] catalogScenario 5 =
        .error "ValueError: sample larger than population" ∧
      recommend_based_on_genre_artist 1 catalogScenario 3 =
        .error "ValueError: sample larger than population" :=
  ⟨rfl, rfl⟩

/-- Claim C8: the Single-Seed Scorer on a seed id absent from the catalog
returns an empty sequence and raises no error, for every catalog and every
`top_k`. -/
theorem c8_unknown_seed_returns_empty (track_id : Int) (track_df : List Track)
    (top_k : Nat) (h : ∀ r ∈ track_df, r.track_id ≠ track_id) :
    recommend_based_on_genre_artist track_id track_df top_k = .ok ⟨false, []⟩ := by
  have hfind : track_df.find? (fun r => r.track_id == track_id) = none := by
    rw [List.find?_eq_none]
    intro r hr
    simpa using h r hr
  unfold recommend_based_on_genre_artist
  rw [hfind]

/-- Witness for C8 at seed 999 against the seven-track catalog. -/
theorem c8_witness :
    recommend_based_on_genre_artist 999 catalogWide 5 = .ok ⟨false, []⟩ :=
  c8_unknown_seed_returns_empty 999 catalogWide 5 (by decide)

/-- Claim C9: the watch-history entry point returns exactly the result of the
favorites entry point on every input. -/
theorem c9_watch_history_equals_favorites (ids : List Int) (track_df : List Track)
    (top_k : Nat) :
    recommend_from_watch_history ids track_df top_k =
      recommend_from_favorites ids track_df top_k := rfl

end Recommend

namespace Recommend

/-- Every row of a candidate set arises by scoring a non-seed catalog row. -/
theorem mem_candidatesOf {tid : Int} {df : List Track} {it : Track} {c : Cand}
    (h : c ∈ candidatesOf tid df it) :
    ∃ r ∈ df, r.track_id ≠ tid ∧
      c = scoreCandidate (clean_string it.genre_top) (clean_string it.artist_name) r := by
  unfold candidatesOf at h
  rcases List.mem_map.mp h with ⟨r, hr, rfl⟩
  rcases List.mem_filter.mp hr with ⟨hrdf, hne⟩
  exact ⟨r, hrdf, by simpa using hne, rfl⟩

/-- Every row of a successful scorer output belongs to the candidate set. -/
theorem scorer_mem_candidates {tid : Int} {df : List Track} {k : Nat}
    {out : PFrame} {it : Track} {c : Cand}
    (hfind : df.find? (fun r => r.track_id == tid) = some it)
    (hok : recommend_based_on_genre_artist tid df k = .ok out)
    (hc : c ∈ out.rows) : c ∈ candidatesOf tid df it := by
  obtain ⟨diverse, hdiv, rfl⟩ := scorer_ok_inv hfind hok
  have hc2 := mem_of_mem_drop_duplicates (List.take_subset _ _ hc)
  rcases List.mem_append.mp hc2 with h | h
  · exact (sort_values_desc_perm _).mem_iff.mp
      (List.take_subset _ _ (List.take_subset _ _ h))
  · exact hdiv _ h

/-- Claim C6: a successful scorer output has pairwise distinct ids, never
contains the seed id, and has at most `top_k + 3` rows (when the diversity
draw raises — see C2 — there is no output sequence, so the claim is read on
the successful returns). -/
theorem c6_scorer_output_wellformed (track_id : Int) (track_df : List Track)
    (top_k : Nat) (out : PFrame)
    (hok : recommend_based_on_genre_artist track_id track_df top_k = .ok out) :
    (out.rows.map Cand.track_id).Nodup ∧ (∀ c ∈ out.rows, c.track_id ≠ track_id) ∧
      out.rows.length ≤ top_k + 3 := by
  cases hfind : track_df.find? (fun r => r.track_id == track_id) with
  | none =>
    unfold recommend_based_on_genre_artist at hok
    rw [hfind] at hok
    cases hok
    simp
  | some it =>
    have hmem : ∀ c ∈ out.rows, c ∈ candidatesOf track_id track_df it :=
      fun c hc => scorer_mem_candidates hfind hok hc
    obtain ⟨diverse, hdiv, hout⟩ := scorer_ok_inv hfind hok
    refine ⟨?_, ?_, ?_⟩
    · rw [hout]
      exact List.Nodup.sublist ((List.take_sublist _ _).map Cand.track_id)
        (drop_duplicates_by_id_nodup _)
    · intro c hc
      obtain ⟨r, _, hrne, rfl⟩ := mem_candidatesOf (hmem c hc)
      exact hrne
    · rw [hout]
      exact List.length_take_le _ _

/-- Claim C3: every row of a successful scorer output is a normalized catalog
row whose similarity is exactly 1.0 when both its normalized genre and its
normalized artist match the seed's, 0.7 on a genre-only match, 0.3 on an
artist-only match and 0.0 otherwise (`simValue` reads the stored tenths back
as the exact rational value of the Python float). -/
theorem c3_similarity_cases (track_id : Int) (track_df : List Track) (top_k : Nat)
    (input_track : Track) (out : PFrame) (c : Cand)
    (hfind : track_df.find? (fun r => r.track_id == track_id) = some input_track)
    (hok : recommend_based_on_genre_artist track_id track_df top_k = .ok out)
    (hc : c ∈ out.rows) :
    ∃ r ∈ track_df, r.track_id ≠ track_id ∧ c.track_id = r.track_id ∧
      simValue c.similarity =
        (if clean_string r.genre_top = clean_string input_track.genre_top then
           if clean_string r.artist_name = clean_string input_track.artist_name
             then (1.0 : ℚ) else 0.7
         else
           if clean_string r.artist_name = clean_string input_track.artist_name
             then (0.3 : ℚ) else 0.0) := by
  obtain ⟨r, hrdf, hrne, rfl⟩ := mem_candidatesOf (scorer_mem_candidates hfind hok hc)
  refine ⟨r, hrdf, hrne, rfl, ?_⟩
  unfold scoreCandidate simValue
  by_cases hg : clean_string r.genre_top = clean_string input_track.genre_top <;>
    by_cases ha : clean_string r.artist_name = clean_string input_track.artist_name <;>
      simp only [hg, ha, if_pos, if_neg, if_true, if_false] <;> norm_num

end Recommend

namespace Recommend

/-- Witness for C6: the scorer output for seed 1 on the seven-track catalog
with `top_k = 5` has distinct ids, omits the seed, and holds at most 8 rows. -/
theorem c6_witness :
    (outWide.rows.map Cand.track_id).Nodup ∧
      (∀ c ∈ outWide.rows, c.track_id ≠ 1) ∧ outWide.rows.length ≤ 5 + 3 :=
  c6_scorer_output_wellformed 1 catalogWide 5 outWide rfl

/-- Witness for C3: in the scorer output for seed 1 on the seven-track catalog,
the row of track 2 (a genre-only match) carries exactly similarity 0.7. -/
theorem c3_witness :
    ∃ r ∈ catalogWide, r.track_id ≠ 1 ∧
      (⟨2, none, "rock", "b", 7⟩ : Cand).track_id = r.track_id ∧
      simValue (⟨2, none, "rock", "b", 7⟩ : Cand).similarity =
        (if clean_string r.genre_top = clean_string (some "Rock") then
           if clean_string r.artist_name = clean_string (some "A")
             then (1.0 : ℚ) else 0.7
         else
           if clean_string r.artist_name = clean_string (some "A")
             then (0.3 : ℚ) else 0.0) :=
  c3_similarity_cases 1 catalogWide 5 ⟨1, none, some "Rock", some "A"⟩ outWide
    ⟨2, none, "rock", "b", 7⟩ rfl rfl (by decide)

/-- Claim C7: a successful aggregator output has pairwise distinct ids, at
most `top_k` rows, and is ordered by similarity descending. -/
theorem c7_aggregate_output_wellformed (fav_ids : List Int) (track_df : List Track)
    (top_k : Nat) (out : List Cand)
    (hok : recommend_from_favorites fav_ids track_df top_k = .ok out) :
    (out.map Cand.track_id).Nodup ∧ out.length ≤ top_k ∧ out.Pairwise simGE := by
  unfold recommend_from_favorites at hok
  cases hacc : accumRecs fav_ids track_df ⟨false, []⟩ with
  | error e => rw [hacc] at hok; cases hok
  | ok all_recs =>
    rw [hacc] at hok
    simp only at hok
    by_cases hcols : all_recs.hasCols = true
    · rw [if_pos hcols] at hok
      cases hok
      refine ⟨?_, ?_, ?_⟩
      · exact List.Nodup.sublist ((List.take_sublist _ _).map Cand.track_id)
          ((((sort_values_desc_perm _).map Cand.track_id).nodup_iff).mpr
            (drop_duplicates_by_id_nodup _))
      · exact List.length_take_le _ _
      · exact (sort_values_desc_pairwise _).sublist (List.take_sublist _ _)
    · rw [if_neg hcols] at hok
      cases hok

/-- Witness for C7: the aggregator output for seeds `[1]` on the seven-track
catalog with `top_k = 10`. -/
theorem c7_witness :
    (rowsWide.map Cand.track_id).Nodup ∧ rowsWide.length ≤ 10 ∧
      rowsWide.Pairwise simGE :=
  c7_aggregate_output_wellformed [1] catalogWide 10 rowsWide rfl

end Recommend

namespace Recommend

/-- Running the accumulation loop from any accumulator equals running it from
the empty frame and prepending the accumulator (`pd.concat` is associative and
the empty column-less frame is its identity). -/
theorem accumRecs_from_acc (ids : List Int) (df : List Track) (acc : PFrame) :
    accumRecs ids df acc =
      match accumRecs ids df ⟨false, []⟩ with
      | .error e => .error e
      | .ok F => .ok (pconcat acc F) := by
  induction ids generalizing acc with
  | nil => simp [accumRecs, pconcat]
  | cons t rest ih =>
    simp only [accumRecs]
    cases h : recommend_based_on_genre_artist t df 3 with
    | error e => rfl
    | ok recs =>
      simp only
      rw [ih (pconcat acc recs), ih (pconcat ⟨false, []⟩ recs)]
      cases hrest : accumRecs rest df ⟨false, []⟩ with
      | error e => rfl
      | ok F => simp [pconcat, Bool.or_assoc, List.append_assoc]

/-- The accumulation loop splits over list append. -/
theorem accumRecs_append (xs ys : List Int) (df : List Track) (acc : PFrame) :
    accumRecs (xs ++ ys) df acc =
      match accumRecs xs df acc with
      | .error e => .error e
      | .ok F => accumRecs ys df F := by
  induction xs generalizing acc with
  | nil => simp [accumRecs]
  | cons t rest ih =>
    simp only [List.cons_append, accumRecs]
    cases h : recommend_based_on_genre_artist t df 3 with
    | error e => rfl
    | ok recs => exact ih (pconcat acc recs)

/-- A successful loop run keeps every accumulator row and the column flag. -/
theorem accumRecs_ok_extends {ids : List Int} {df : List Track} {P : PFrame} :
    ∀ acc, accumRecs ids df acc = .ok P →
      (∀ x ∈ acc.rows, x ∈ P.rows) ∧ (acc.hasCols = true → P.hasCols = true) := by
  induction ids with
  | nil =>
    intro acc h
    simp only [accumRecs] at h
    cases h
    exact ⟨fun x hx => hx, fun hc => hc⟩
  | cons t rest ih =>
    intro acc h
    simp only [accumRecs] at h
    cases hr : recommend_based_on_genre_artist t df 3 with
    | error e => rw [hr] at h; cases h
    | ok recs =>
      rw [hr] at h
      obtain ⟨h1, h2⟩ := ih (pconcat acc recs) h
      constructor
      · intro x hx
        exact h1 x (by simp [pconcat, hx])
      · intro hc
        exact h2 (by simp [pconcat, hc])

/-- For a seed id occurring in a successful loop run, the scorer call
succeeded and its rows and column flag are absorbed into the final frame. -/
theorem accumRecs_ok_of_mem {ids : List Int} {df : List Track} {P : PFrame}
    {s : Int} :
    ∀ acc, s ∈ ids → accumRecs ids df acc = .ok P →
      ∃ F, recommend_based_on_genre_artist s df 3 = .ok F ∧
        (∀ x ∈ F.rows, x ∈ P.rows) ∧ (F.hasCols = true → P.hasCols = true) := by
  induction ids with
  | nil => intro acc hs _; cases hs
  | cons t rest ih =>
    intro acc hs h
    simp only [accumRecs] at h
    cases hr : recommend_based_on_genre_artist t df 3 with
    | error e => rw [hr] at h; cases h
    | ok recs =>
      rw [hr] at h
      rcases List.mem_cons.mp hs with rfl | hs'
      · obtain ⟨h1, h2⟩ := accumRecs_ok_extends (pconcat acc recs) h
        exact ⟨recs, hr, fun x hx => h1 x (by simp [pconcat, hx]),
          fun hc => h2 (by simp [pconcat, hc])⟩
      · exact ih (pconcat acc recs) hs' h

/-- Rows whose ids were all seen already are dropped wholesale. -/
theorem dedupGo_drop_seen {B : List Cand} :
    ∀ (S : List Cand) (seen : List Int), (∀ x ∈ S, x.track_id ∈ seen) →
      dedupGo seen (S ++ B) = dedupGo seen B := by
  intro S
  induction S with
  | nil => intro seen _; rfl
  | cons x S ih =>
    intro seen h
    simp only [List.cons_append, dedupGo]
    rw [if_pos (h x (List.mem_cons_self x S))]
    exact ih seen (fun y hy => h y (List.mem_cons_of_mem x hy))

/-- A middle block whose ids all occur in the prefix (or were already seen)
does not affect first-occurrence deduplication. -/
theorem dedupGo_subsumed {S B : List Cand} :
    ∀ (A : List Cand) (seen : List Int),
      (∀ x ∈ S, x.track_id ∈ A.map Cand.track_id ∨ x.track_id ∈ seen) →
      dedupGo seen (A ++ (S ++ B)) = dedupGo seen (A ++ B) := by
  intro A
  induction A with
  | nil =>
    intro seen h
    simp only [List.nil_append]
    exact dedupGo_drop_seen S seen (fun x hx => (h x hx).resolve_left (by simp))
  | cons a A ih =>
    intro seen h
    simp only [List.cons_append, dedupGo]
    by_cases ha : a.track_id ∈ seen
    · rw [if_pos ha, if_pos ha]
      refine ih seen (fun x hx => ?_)
      rcases h x hx with hA | hseen
      · rw [List.map_cons, List.mem_cons] at hA
        rcases hA with heq | hA'
        · exact Or.inr (heq ▸ ha)
        · exact Or.inl hA'
      · exact Or.inr hseen
    · rw [if_neg ha, if_neg ha]
      congr 1
      refine ih (a.track_id :: seen) (fun x hx => ?_)
      rcases h x hx with hA | hseen
      · rw [List.map_cons, List.mem_cons] at hA
        rcases hA with heq | hA'
        · exact Or.inr (heq ▸ List.mem_cons_self _ _)
        · exact Or.inl hA'
      · exact Or.inr (List.mem_cons_of_mem _ hseen)

/-- Claim C10: removing from `seed_ids` an occurrence of a seed id that
already occurred earlier in the sequence does not change the aggregator
output: the duplicate seed re-contributes exactly the rows the deterministic
scorer already contributed, and first-occurrence deduplication discards
them. -/
theorem c10_duplicate_seed_removed (pre post : List Int) (s : Int)
    (track_df : List Track) (top_k : Nat) (hs : s ∈ pre) :
    recommend_from_favorites (pre ++ s :: post) track_df top_k =
      recommend_from_favorites (pre ++ post) track_df top_k := by
  unfold recommend_from_favorites
  rw [accumRecs_append, accumRecs_append]
  cases hpre : accumRecs pre track_df ⟨false, []⟩ with
  | error e => rfl
  | ok P =>
    obtain ⟨F, hF, hsub, hcols⟩ := accumRecs_ok_of_mem ⟨false, []⟩ hs hpre
    simp only [accumRecs]
    rw [hF]
    simp only
    rw [accumRecs_from_acc post track_df (pconcat P F),
      accumRecs_from_acc post track_df P]
    cases hpost : accumRecs post track_df ⟨false, []⟩ with
    | error e => rfl
    | ok Q =>
      have hrows : drop_duplicates_by_id (pconcat (pconcat P F) Q).rows =
          drop_duplicates_by_id (pconcat P Q).rows := by
        show dedupGo [] ((P.rows ++ F.rows) ++ Q.rows) =
          dedupGo [] (P.rows ++ Q.rows)
        rw [List.append_assoc]
        exact dedupGo_subsumed P.rows []
          (fun x hx => Or.inl (List.mem_map_of_mem Cand.track_id (hsub x hx)))
      have hhc : (pconcat (pconcat P F) Q).hasCols = (pconcat P Q).hasCols := by
        cases hFc : F.hasCols
        · simp [pconcat, hFc]
        · simp [pconcat, hFc, hcols hFc]
      simp only [hhc, hrows]

/-- Witness for C10: a duplicated seed 1 on the seven-track catalog. -/
theorem c10_witness :
    recommend_from_favorites [1, 1] catalogWide 10 =
      recommend_from_favorites [1] catalogWide 10 :=
  c10_duplicate_seed_removed [1] [] 1 catalogWide 10 (by decide)

end Recommend
